import Mathlib

/-!
Verification of the blobber scanner (Azure Blob Storage public-container
scanner).  The definitions below are a shallow embedding of the Go source:

* `Blobber` models `src/cmd/blobber/root.go` (the wired-up command):
  the probe/classification part of `checkContainer`, the continuation-marker
  pagination loops, the scheduler loop of `RootCmd.Run` (DNS pre-filter and
  probe dispatch), and the mode/flag checks.
* `Azure` models `src/pkg/azure/types.go` (`Scanner.checkAccess`).
* `Downloader` models `DownloadFile` of the downloader package.

External effects (the HTTP client, `xml.Unmarshal`, DNS, the filesystem) are
represented by the values the code observes from them: a captured response is
its status plus the outcomes of the two XML parses the code performs on the
body; a page fetch is the outcome the loop body sees; DNS is a predicate on
domain names; the filesystem state at the one destination path is the optional
content stored there.
-/

namespace Blobber

/-- `BlobProperties` of root.go (XML-mapped fields). -/
structure BlobProperties where
  creationTime : String
  lastModified : String
  etag : String
  contentLength : Int
  contentType : String
  contentEncoding : String
  contentLanguage : String
  contentCRC64 : String
  contentMD5 : String
  cacheControl : String
  contentDisposition : String
  blobType : String
  accessTier : String
deriving Repr, DecidableEq

/-- `Blob` of root.go. -/
structure Blob where
  name : String
  properties : BlobProperties
deriving Repr, DecidableEq

/-- `BlobError` of root.go: the error-schema view of a response body. -/
structure BlobError where
  code : String
  message : String
deriving Repr, DecidableEq

/-- `EnumerationResults` of root.go: the listing view of a response body. -/
structure EnumerationResults where
  serviceEndpoint : String
  containerName : String
  blobs : List Blob
  nextMarker : String
deriving Repr, DecidableEq

/-- A captured response body, observed through the two `xml.Unmarshal` calls
`checkContainer` performs on it: `errorParse` is the result of unmarshalling
into `BlobError` (`none` when unmarshalling returns an error), `enumParse`
the result of unmarshalling into `EnumerationResults`. -/
structure Body where
  errorParse : Option BlobError
  enumParse : Option EnumerationResults
deriving Repr, DecidableEq

/-- A captured HTTP response: status code plus body. -/
structure Response where
  status : Nat
  body : Body
deriving Repr, DecidableEq

/-- The classification outcome of `checkContainer` (root.go lines 309-373):
which return path the probe takes.  `public` carries the parsed listing the
subsequent enumeration uses. -/
inductive ContainerOutcome where
  | noAuth
  | publicNotPermitted
  | otherError (code : String)
  | notAccessible
  | public (results : EnumerationResults)
deriving Repr, DecidableEq

/-- The tail of `checkContainer`'s classification: parse the body as
`EnumerationResults`; a parse error or an empty blob list means
"Not accessible or no blobs found" (root.go lines 365-373). -/
def enumOutcome (b : Body) : ContainerOutcome :=
  match b.enumParse with
  | none => .notAccessible
  | some results => if results.blobs = [] then .notAccessible else .public results

/-- The classification part of `checkContainer` (root.go lines 340-373),
as a function of the captured response.  The error-schema switch runs only
when the `BlobError` parse succeeded with a non-empty code; the
`ResourceNotFound` case falls through (`break`) to the listing parse.
Note the HTTP status field of the response is never consulted. -/
def checkContainerClassify (resp : Response) : ContainerOutcome :=
  match resp.body.errorParse with
  | some blobError =>
    if blobError.code = "" then enumOutcome resp.body
    else if blobError.code = "NoAuthenticationInformation" then .noAuth
    else if blobError.code = "PublicAccessNotPermitted" then .publicNotPermitted
    else if blobError.code = "ResourceNotFound" then enumOutcome resp.body
    else .otherError blobError.code
  | none => enumOutcome resp.body

/-- Whether an outcome is the publicly-accessible one (the `[FOUND]` branches
of `checkContainer`, which increment `foundContainers`). -/
def outcomePublic : ContainerOutcome → Bool
  | .public _ => true
  | _ => false

end Blobber

namespace Azure

/-- `ErrorResponse` of pkg/azure (no XMLName constraint). -/
structure ErrorResponse where
  code : String
  message : String
deriving Repr, DecidableEq

/-- The body of a response as `Scanner.checkAccess` observes it: whether
`io.ReadAll` succeeded, and the outcome of `xml.Unmarshal` into
`ErrorResponse` (`none` when unmarshalling returns an error). -/
structure AzBody where
  readOk : Bool
  errorParse : Option ErrorResponse
deriving Repr, DecidableEq

/-- What `client.Get` returns to `checkAccess`: a transport-level failure, or
a response with a status code and a body. -/
inductive FetchResult where
  | failed
  | ok (status : Nat) (body : AzBody)
deriving Repr, DecidableEq

/-- `AccessResult` of pkg/azure (the `Blobs` field, never set by
`checkAccess`, is omitted). -/
structure AccessResult where
  account : String
  container : String
  isPublic : Bool
  errorCode : String
  url : String
deriving Repr, DecidableEq

/-- `Scanner.checkAccess` (pkg/azure/types.go lines 105-182) as a function of
the captured fetch result.  Mirrors the source's branch order: request error,
HTTP 200, body-read error, XML parse error, empty error code, other code. -/
def checkAccess (baseDomain account container : String) (r : FetchResult) : AccessResult :=
  let url := "https://" ++ account ++ "." ++ baseDomain ++ "/" ++ container ++ "?restype=container"
  match r with
  | .failed => ⟨account, container, false, "RequestFailed", url⟩
  | .ok status body =>
    if status = 200 then ⟨account, container, true, "", url⟩
    else if body.readOk = false then ⟨account, container, false, "ReadFailed", url⟩
    else
      match body.errorParse with
      | none => ⟨account, container, true, "", url⟩
      | some e =>
        if e.code = "" then ⟨account, container, true, "", url⟩
        else ⟨account, container, false, e.code, url⟩

end Azure

namespace Blobber

/-- What one iteration of a pagination loop observes for a marker: `client.Get`
failed, `io.ReadAll` failed, `xml.Unmarshal` failed, or a parsed page. -/
inductive PageOutcome where
  | fetchErr
  | readErr
  | parseErr
  | page (results : EnumerationResults)
deriving Repr, DecidableEq

/-- Whether a page outcome is one of the three `break`-ing failures. -/
def pageErr : PageOutcome → Bool
  | .page _ => false
  | _ => true

/-- The continuation-marker fetch loop of `checkContainer`
(root.go lines 510-556): `for nextMarker != "" && len(allBlobs) < limit`,
appending each fetched page's blobs and following its `NextMarker`; any
fetch/read/parse failure breaks out of the loop.  The second component is the
trace of markers passed to `client.Get`, in order (a failing request is still
a request).  `fuel` bounds the number of iterations; the Go loop has no such
bound and can run as long as the server keeps returning fresh markers. -/
def fetchNextPages (fetch : String → PageOutcome) (limit : Int) :
    Nat → List Blob → String → List Blob × List String
  | 0, allBlobs, _ => (allBlobs, [])
  | fuel + 1, allBlobs, nextMarker =>
    if nextMarker ≠ "" ∧ (allBlobs.length : Int) < limit then
      match fetch nextMarker with
      | .page results =>
        let rest := fetchNextPages fetch limit fuel (allBlobs ++ results.blobs) results.nextMarker
        (rest.1, nextMarker :: rest.2)
      | _ => (allBlobs, [nextMarker])
    else (allBlobs, [])

/-- The total-count walk of `checkContainer` (root.go lines 403-454):
`for nextMarker != ""` with no element cap, accumulating `totalBlobCount`;
failures break.  Second component is again the trace of requested markers. -/
def countBlobsWalk (fetch : String → PageOutcome) :
    Nat → Nat → String → Nat × List String
  | 0, totalBlobCount, _ => (totalBlobCount, [])
  | fuel + 1, totalBlobCount, nextMarker =>
    if nextMarker ≠ "" then
      match fetch nextMarker with
      | .page results =>
        let rest := countBlobsWalk fetch fuel (totalBlobCount + results.blobs.length) results.nextMarker
        (rest.1, nextMarker :: rest.2)
      | _ => (totalBlobCount, [nextMarker])
    else (totalBlobCount, [])

/-- The enumeration tail of `checkContainer` (root.go lines 484-564): starting
from the first page `results`, continuation pages are fetched only when
`limit > 5000` and a marker is present, and the gathered list is finally
truncated to `limit` when `limit > 0`.  First component: the blob list handed
to the sink (`downloadBlobs` / `saveBlobList` / `listBlobURLs`); second: the
trace of continuation markers requested. -/
def checkContainerList (fetch : String → PageOutcome) (limit : Int)
    (results : EnumerationResults) (fuel : Nat) : List Blob × List String :=
  let walked :=
    if 5000 < limit ∧ results.nextMarker ≠ "" then
      fetchNextPages fetch limit fuel results.blobs results.nextMarker
    else (results.blobs, [])
  let allBlobs :=
    if 0 < limit ∧ limit < (walked.1.length : Int) then walked.1.take limit.toNat
    else walked.1
  (allBlobs, walked.2)

/-- `PrefixTo fetch m ps m'`: starting from marker `m`, successive fetches
succeed and return exactly the pages `ps`, leaving the walk at marker `m'`
(each page is fetched with the previous page's `NextMarker`). -/
inductive PrefixTo (fetch : String → PageOutcome) : String → List EnumerationResults → String → Prop
  | nil (m : String) : PrefixTo fetch m [] m
  | cons {m m' : String} {r : EnumerationResults} {ps : List EnumerationResults} :
      m ≠ "" → fetch m = .page r → PrefixTo fetch r.nextMarker ps m' →
      PrefixTo fetch m (r :: ps) m'

/-- A complete page chain: from marker `m` the pages `ps` are fetched in
sequence and the last page's marker is empty (the terminal page). -/
def Chain (fetch : String → PageOutcome) (m : String) (ps : List EnumerationResults) : Prop :=
  PrefixTo fetch m ps ""

/-- The markers under which the pages of a chain starting at marker `m` are
requested: the first page under `m`, each later page under its predecessor's
`NextMarker`. -/
def chainTokens : String → List EnumerationResults → List String
  | _, [] => []
  | m, r :: ps => m :: chainTokens r.nextMarker ps

/-- Total number of blob records across a list of pages. -/
def totalBlobs (ps : List EnumerationResults) : Nat :=
  (ps.map fun r => r.blobs.length).sum

/-- In-order concatenation of the per-page record sequences. -/
def chainBlobs (ps : List EnumerationResults) : List Blob :=
  (ps.map EnumerationResults.blobs).flatten

theorem chainBlobs_nil : chainBlobs [] = [] := rfl

theorem chainBlobs_cons (r : EnumerationResults) (ps : List EnumerationResults) :
    chainBlobs (r :: ps) = r.blobs ++ chainBlobs ps := rfl

theorem totalBlobs_nil : totalBlobs [] = 0 := rfl

theorem totalBlobs_cons (r : EnumerationResults) (ps : List EnumerationResults) :
    totalBlobs (r :: ps) = r.blobs.length + totalBlobs ps := by
  simp [totalBlobs]

/-- With an empty marker the fetch loop issues no request and returns its
accumulator unchanged. -/
theorem fetchNextPages_empty_marker (fetch : String → PageOutcome) (limit : Int)
    (fuel : Nat) (acc : List Blob) :
    fetchNextPages fetch limit fuel acc "" = (acc, []) := by
  cases fuel <;> simp [fetchNextPages]

/-- Decomposition of the fetch loop along a successful page prefix: walking the
pages `ps` from marker `m` appends exactly their records in order, requests
exactly the chain's tokens, and then continues from marker `m'` with the
remaining fuel — provided the cap is not hit along the prefix. -/
theorem fetchNextPages_prefix {fetch : String → PageOutcome} {limit : Int}
    {m m' : String} {ps : List EnumerationResults}
    (h : PrefixTo fetch m ps m') :
    ∀ (fuel : Nat) (acc : List Blob), ps.length ≤ fuel →
      ((acc.length : Int) + (totalBlobs ps : Int)) < limit →
      fetchNextPages fetch limit fuel acc m =
        ((fetchNextPages fetch limit (fuel - ps.length) (acc ++ chainBlobs ps) m').1,
         chainTokens m ps ++ (fetchNextPages fetch limit (fuel - ps.length) (acc ++ chainBlobs ps) m').2) := by
  induction h with
  | nil m => intro fuel acc _ _; simp [chainTokens, chainBlobs]
  | cons hne hf hrest ih =>
    intro fuel acc hfuel hlim
    match fuel with
    | 0 => exact absurd hfuel (by simp)
    | f + 1 =>
      rename_i m m' r ps
      have hacc : (acc.length : Int) < limit := by
        have := totalBlobs_cons r ps
        omega
      have hstep : fetchNextPages fetch limit (f + 1) acc m =
          ((fetchNextPages fetch limit f (acc ++ r.blobs) r.nextMarker).1,
           m :: (fetchNextPages fetch limit f (acc ++ r.blobs) r.nextMarker).2) := by
        simp only [fetchNextPages, if_pos (And.intro hne hacc), hf]
      rw [hstep]
      have hfl' : ps.length ≤ f := by
        simp only [List.length_cons] at hfuel
        omega
      have hrec := ih f (acc ++ r.blobs) hfl'
        (by
          have := totalBlobs_cons r ps
          have hlen : (acc ++ r.blobs).length = acc.length + r.blobs.length := by
            simp
          omega)
      rw [hrec]
      have harr : (acc ++ r.blobs) ++ chainBlobs ps = acc ++ chainBlobs (r :: ps) := by
        rw [chainBlobs_cons, List.append_assoc]
      have hfl : f - ps.length = f + 1 - (r :: ps).length := by simp
      rw [harr, hfl]
      simp [chainTokens]

/-- Along a complete chain whose total stays below the cap, the fetch loop
returns exactly the concatenation of the chain's records and requests exactly
the chain's tokens. -/
theorem fetchNextPages_chain {fetch : String → PageOutcome} {limit : Int}
    {m : String} {ps : List EnumerationResults}
    (h : Chain fetch m ps) (fuel : Nat) (acc : List Blob)
    (hfuel : ps.length ≤ fuel)
    (hlim : ((acc.length : Int) + (totalBlobs ps : Int)) < limit) :
    fetchNextPages fetch limit fuel acc m = (acc ++ chainBlobs ps, chainTokens m ps) := by
  have hdec := fetchNextPages_prefix h fuel acc hfuel hlim
  rw [hdec, fetchNextPages_empty_marker]
  simp

/-- The gathered list never exceeds the chain's total record count
(stated over the underlying `PrefixTo` derivation). -/
theorem fetchNextPages_length_le_aux {fetch : String → PageOutcome} {limit : Int}
    {m m' : String} {ps : List EnumerationResults}
    (h : PrefixTo fetch m ps m') :
    m' = "" → ∀ (fuel : Nat) (acc : List Blob), ps.length ≤ fuel →
      ((fetchNextPages fetch limit fuel acc m).1).length ≤ acc.length + totalBlobs ps := by
  induction h with
  | nil m =>
    intro hend fuel acc _
    subst hend
    rw [fetchNextPages_empty_marker, totalBlobs_nil]
    show acc.length ≤ acc.length + 0
    omega
  | cons hne hf hrest ih =>
    intro hend fuel acc hfuel
    match fuel with
    | 0 => exact absurd hfuel (by simp)
    | f + 1 =>
      rename_i m m' r ps
      have hcons := totalBlobs_cons r ps
      by_cases hacc : (acc.length : Int) < limit
      · have hstep : fetchNextPages fetch limit (f + 1) acc m =
            ((fetchNextPages fetch limit f (acc ++ r.blobs) r.nextMarker).1,
             m :: (fetchNextPages fetch limit f (acc ++ r.blobs) r.nextMarker).2) := by
          simp only [fetchNextPages, if_pos (And.intro hne hacc), hf]
        rw [hstep]
        show ((fetchNextPages fetch limit f (acc ++ r.blobs) r.nextMarker).1).length ≤
          acc.length + totalBlobs (r :: ps)
        have hfl : ps.length ≤ f := by
          simp only [List.length_cons] at hfuel
          omega
        have hrec := ih hend f (acc ++ r.blobs) hfl
        have hlen : (acc ++ r.blobs).length = acc.length + r.blobs.length := by simp
        omega
      · have hstep : fetchNextPages fetch limit (f + 1) acc m = (acc, []) := by
          simp only [fetchNextPages]
          rw [if_neg]
          intro hcontra
          exact hacc hcontra.2
        rw [hstep]
        show acc.length ≤ acc.length + totalBlobs (r :: ps)
        omega

/-- Chain version of `fetchNextPages_length_le`. -/
theorem fetchNextPages_length_le {fetch : String → PageOutcome} {limit : Int}
    {m : String} {ps : List EnumerationResults}
    (h : Chain fetch m ps) (fuel : Nat) (acc : List Blob) (hfuel : ps.length ≤ fuel) :
    ((fetchNextPages fetch limit fuel acc m).1).length ≤ acc.length + totalBlobs ps :=
  fetchNextPages_length_le_aux h rfl fuel acc hfuel

/-- The gathered list reaches the cap or exhausts the chain: its length is at
least `min limit.toNat (acc.length + totalBlobs ps)` (over `PrefixTo`). -/
theorem fetchNextPages_length_ge_aux {fetch : String → PageOutcome} {limit : Int}
    {m m' : String} {ps : List EnumerationResults}
    (h : PrefixTo fetch m ps m') :
    m' = "" → ∀ (fuel : Nat) (acc : List Blob), ps.length ≤ fuel →
      min limit.toNat (acc.length + totalBlobs ps) ≤
        ((fetchNextPages fetch limit fuel acc m).1).length := by
  induction h with
  | nil m =>
    intro hend fuel acc _
    subst hend
    rw [fetchNextPages_empty_marker, totalBlobs_nil]
    show min limit.toNat (acc.length + 0) ≤ acc.length
    omega
  | cons hne hf hrest ih =>
    intro hend fuel acc hfuel
    match fuel with
    | 0 => exact absurd hfuel (by simp)
    | f + 1 =>
      rename_i m m' r ps
      have hcons := totalBlobs_cons r ps
      by_cases hacc : (acc.length : Int) < limit
      · have hstep : fetchNextPages fetch limit (f + 1) acc m =
            ((fetchNextPages fetch limit f (acc ++ r.blobs) r.nextMarker).1,
             m :: (fetchNextPages fetch limit f (acc ++ r.blobs) r.nextMarker).2) := by
          simp only [fetchNextPages, if_pos (And.intro hne hacc), hf]
        rw [hstep]
        show min limit.toNat (acc.length + totalBlobs (r :: ps)) ≤
          ((fetchNextPages fetch limit f (acc ++ r.blobs) r.nextMarker).1).length
        have hfl : ps.length ≤ f := by
          simp only [List.length_cons] at hfuel
          omega
        have hrec := ih hend f (acc ++ r.blobs) hfl
        have hlen : (acc ++ r.blobs).length = acc.length + r.blobs.length := by simp
        omega
      · have hstep : fetchNextPages fetch limit (f + 1) acc m = (acc, []) := by
          simp only [fetchNextPages]
          rw [if_neg]
          intro hcontra
          exact hacc hcontra.2
        rw [hstep]
        show min limit.toNat (acc.length + totalBlobs (r :: ps)) ≤ acc.length
        omega

/-- Chain version of `fetchNextPages_length_ge`. -/
theorem fetchNextPages_length_ge {fetch : String → PageOutcome} {limit : Int}
    {m : String} {ps : List EnumerationResults}
    (h : Chain fetch m ps) (fuel : Nat) (acc : List Blob) (hfuel : ps.length ≤ fuel) :
    min limit.toNat (acc.length + totalBlobs ps) ≤
      ((fetchNextPages fetch limit fuel acc m).1).length :=
  fetchNextPages_length_ge_aux h rfl fuel acc hfuel

/-- An observable step of the scheduler loop of `RootCmd.Run`
(root.go lines 185-220): a DNS lookup (`domainExists`) with its outcome, or
the dispatch of one probe worker for an (account, container) pair.  A
dispatched worker acquires a probe-semaphore slot, runs `checkContainer`, and
produces that pair's probe output. -/
inductive ScanEvent where
  | resolve (domain : String) (ok : Bool)
  | dispatch (account : String) (container : String)
deriving Repr, DecidableEq

/-- The events of one iteration of the outer account loop: the account's
domain is looked up once; on success one worker per container is dispatched,
on failure the whole account is skipped (the progress bar advances by
`len(containerList)` and the loop continues). -/
def accountEvents (resolves : String → Bool) (containers : List String)
    (baseDomain account : String) : List ScanEvent :=
  let domain := account ++ "." ++ baseDomain
  if resolves domain then
    ScanEvent.resolve domain true :: containers.map (fun c => ScanEvent.dispatch account c)
  else
    [ScanEvent.resolve domain false]

/-- The full event trace of the scheduler loop over the account list
(root.go lines 185-220): accounts in order, each contributing its
`accountEvents` block. -/
def scanTrace (resolves : String → Bool) (accounts containers : List String)
    (baseDomain : String) : List ScanEvent :=
  (accounts.map (accountEvents resolves containers baseDomain)).flatten

/-- Whether an event concerns the given account: its DNS lookup, or the
dispatch of one of its probe workers. -/
def aboutAccount (baseDomain account : String) : ScanEvent → Bool
  | .resolve d _ => d == account ++ "." ++ baseDomain
  | .dispatch a _ => a == account

/-- The early-exit checks of `RootCmd.Run` before any scanning
(root.go lines 115-153): the `--output`/`--list` conflict, then empty
account/container lists; only `scanning` reaches the scheduler loop. -/
inductive RunOutcome where
  | configError
  | noAccounts
  | noContainers
  | scanning
deriving Repr, DecidableEq

/-- Which exit `RootCmd.Run` takes, in source order. -/
def runOutcome (outputPath : String) (listBlobs : Bool)
    (accountList containerList : List String) : RunOutcome :=
  if outputPath ≠ "" ∧ listBlobs = true then .configError
  else if accountList.isEmpty then .noAccounts
  else if containerList.isEmpty then .noContainers
  else .scanning

/-- The scheduler events a whole `RootCmd.Run` invocation produces: none
unless the run reaches the scanning loop. -/
def runTrace (outputPath : String) (listBlobs : Bool) (resolves : String → Bool)
    (accountList containerList : List String) (baseDomain : String) : List ScanEvent :=
  if runOutcome outputPath listBlobs accountList containerList = .scanning then
    scanTrace resolves accountList containerList baseDomain
  else
    []

/-- The probe semaphore `sem := make(chan struct{}, maxGoroutines)`
(root.go line 179) as a transition system on the number of slots currently
held: `sem <- struct{}{}` (acquire, before a worker is started) is only
enabled while fewer than `n` slots are held, `<-sem` (release, when the
worker finishes) frees one. -/
inductive SemStep (n : Nat) : Nat → Nat → Prop
  | acquire {k : Nat} : k < n → SemStep n k (k + 1)
  | release {k : Nat} : SemStep n (k + 1) k

/-- Slot counts reachable from the idle state of the probe semaphore. -/
inductive SemReachable (n : Nat) : Nat → Prop
  | init : SemReachable n 0
  | step {k k' : Nat} : SemReachable n k → SemStep n k k' → SemReachable n k'

/-- Appending the same string on the right is cancellable. -/
theorem string_append_right_cancel (x y s : String) (h : x ++ s = y ++ s) : x = y := by
  cases x with
  | mk xd =>
    cases y with
    | mk yd =>
      cases s with
      | mk sd =>
        have hd : xd ++ sd = yd ++ sd := congrArg String.data h
        have hxy : xd = yd := List.append_left_injective sd hd
        rw [hxy]

/-- Distinct accounts yield distinct lookup domains. -/
theorem domain_inj {x y bd : String} (h : x ++ "." ++ bd = y ++ "." ++ bd) : x = y := by
  have h1 := string_append_right_cancel (x ++ ".") (y ++ ".") bd h
  exact string_append_right_cancel x y "." h1

/-- An account block contributes no events about a different account. -/
theorem accountEvents_filter_ne (resolves : String → Bool) (containers : List String)
    (bd : String) {x a : String} (hxa : x ≠ a) :
    (accountEvents resolves containers bd x).filter (aboutAccount bd a) = [] := by
  have hdom : (x ++ "." ++ bd == a ++ "." ++ bd) = false :=
    beq_eq_false_iff_ne.mpr (fun hc => hxa (domain_inj hc))
  have hax : (x == a) = false := beq_eq_false_iff_ne.mpr hxa
  unfold accountEvents
  by_cases hres : resolves (x ++ "." ++ bd)
  · rw [if_pos hres]
    refine List.filter_eq_nil_iff.mpr ?_
    intro e he
    rcases List.mem_cons.mp he with he1 | he2
    · subst he1
      simp [aboutAccount, hdom]
    · rcases List.mem_map.mp he2 with ⟨c, _, hc⟩
      subst hc
      simp [aboutAccount, hax]
  · rw [if_neg hres]
    simp [aboutAccount, hdom]

/-- The scan trace of an account list not containing `a` has no events
about `a`. -/
theorem scanTrace_filter_not_mem (resolves : String → Bool)
    (containers : List String) (bd a : String) :
    ∀ (accounts : List String), a ∉ accounts →
      (scanTrace resolves accounts containers bd).filter (aboutAccount bd a) = [] := by
  intro accounts
  induction accounts with
  | nil => intro _; rfl
  | cons x xs ih =>
    intro hmem
    have hxa : x ≠ a := fun hc => hmem (hc ▸ List.mem_cons_self x xs)
    have hxs : a ∉ xs := fun hc => hmem (List.mem_cons_of_mem x hc)
    have hsplit : scanTrace resolves (x :: xs) containers bd =
        accountEvents resolves containers bd x ++ scanTrace resolves xs containers bd := by
      simp [scanTrace]
    rw [hsplit, List.filter_append, accountEvents_filter_ne resolves containers bd hxa, ih hxs]
    rfl

end Blobber

namespace Downloader

/-- What `client.Get` returns to `DownloadFile`: a transport failure, or a
response with a status and a body (a byte sequence). -/
inductive HttpOutcome where
  | netErr
  | resp (status : Nat) (body : List Nat)
deriving Repr, DecidableEq

/-- The external outcomes one `DownloadFile` call observes: whether
`os.MkdirAll` and `os.Create` succeed, the HTTP outcome, and whether
`io.Copy` fails midway (after writing `n` bytes) or completes. -/
structure DlEnv where
  mkdirOk : Bool
  createOk : Bool
  http : HttpOutcome
  copyFailAfter : Option Nat
deriving Repr, DecidableEq

/-- `DownloadFile` (downloader package, lines 13-46), tracking the file at the
destination path: `pre` is its content before the call (`none` when absent),
the result pairs the returned error (`none` on success) with the content
afterwards.  The source creates/truncates the file with `os.Create` BEFORE
issuing `client.Get`, so every later failure leaves the created file behind:
empty on a request failure or a non-200 status, a partial prefix of the body
on a copy failure. -/
def DownloadFile (env : DlEnv) (pre : Option (List Nat)) :
    Option String × Option (List Nat) :=
  if env.mkdirOk = false then (some "failed to create directory", pre)
  else if env.createOk = false then (some "failed to create file", pre)
  else
    match env.http with
    | .netErr => (some "HTTP request failed", some [])
    | .resp status body =>
      if status ≠ 200 then (some "download failed", some [])
      else
        match env.copyFailAfter with
        | some n => (some "file writing error", some (body.take n))
        | none => (none, some body)

end Downloader

namespace Blobber

/-- Empty blob properties, used to build concrete records for evaluation. -/
def props0 : BlobProperties := ⟨"", "", "", 0, "", "", "", "", "", "", "", "", ""⟩

/-- A concrete blob record with the given name. -/
def blobN (s : String) : Blob := ⟨s, props0⟩

/-- A captured body that parses as an `EnumerationResults` with an empty blob
list (and, having root element `EnumerationResults`, fails the `BlobError`
parse, which requires root element `Error`). -/
def emptyListBody : Body := ⟨none, some ⟨"", "cont", [], ""⟩⟩

end Blobber

/-- Claim C1, counterexample: a probe response with HTTP status 200 whose body
parses to an empty blob list is NOT classified as public by `checkContainer`
(root.go): the classification takes the "Not accessible or no blobs found"
return path, because `checkContainer` never consults the status code and
requires a non-empty parsed blob list. -/
theorem checkContainer_status200_emptyList_not_public :
    Blobber.outcomePublic
      (Blobber.checkContainerClassify ⟨200, Blobber.emptyListBody⟩) = false := by
  decide

/-- Claim C1, amended: in `Scanner.checkAccess` (pkg/azure) an HTTP-200
response is classified public regardless of the body; in `checkContainer`
(root.go) the HTTP status is ignored entirely (the classification of any
status equals that of status 200) and a body that parses to an empty blob
list is classified not-public even under status 200. -/
theorem checkAccess_200_public_checkContainer_needs_blobs
    (bd a c : String) (b : Azure.AzBody) (st : Nat) (body : Blobber.Body)
    (er : Blobber.EnumerationResults)
    (henum : body.enumParse = some er) (hempty : er.blobs = []) :
    (Azure.checkAccess bd a c (.ok 200 b)).isPublic = true ∧
    Blobber.checkContainerClassify ⟨st, body⟩ =
      Blobber.checkContainerClassify ⟨200, body⟩ ∧
    Blobber.outcomePublic (Blobber.checkContainerClassify ⟨st, body⟩) = false := by
  refine ⟨by simp [Azure.checkAccess], rfl, ?_⟩
  have he : Blobber.enumOutcome body = Blobber.ContainerOutcome.notAccessible := by
    simp [Blobber.enumOutcome, henum, hempty]
  simp only [Blobber.checkContainerClassify]
  cases hb : body.errorParse with
  | none =>
    show Blobber.outcomePublic (Blobber.enumOutcome body) = false
    rw [he]
    rfl
  | some e =>
    show Blobber.outcomePublic
      (if e.code = "" then Blobber.enumOutcome body
       else if e.code = "NoAuthenticationInformation" then Blobber.ContainerOutcome.noAuth
       else if e.code = "PublicAccessNotPermitted" then
         Blobber.ContainerOutcome.publicNotPermitted
       else if e.code = "ResourceNotFound" then Blobber.enumOutcome body
       else Blobber.ContainerOutcome.otherError e.code) = false
    split_ifs <;> simp [he, Blobber.outcomePublic]

/-- Claim C1 witness: concrete instantiation of the amended statement at a
200 response carrying an empty parsed blob list. -/
theorem checkAccess_200_public_checkContainer_needs_blobs_witness :
    (Azure.checkAccess "blob.core.windows.net" "acct" "cont"
        (.ok 200 ⟨true, none⟩)).isPublic = true ∧
    Blobber.checkContainerClassify ⟨200, Blobber.emptyListBody⟩ =
      Blobber.checkContainerClassify ⟨200, Blobber.emptyListBody⟩ ∧
    Blobber.outcomePublic
      (Blobber.checkContainerClassify ⟨200, Blobber.emptyListBody⟩) = false :=
  checkAccess_200_public_checkContainer_needs_blobs
    "blob.core.windows.net" "acct" "cont" ⟨true, none⟩ 200 Blobber.emptyListBody
    ⟨"", "cont", [], ""⟩ rfl rfl

/-- Claim C2: evaluating `Scanner.checkAccess` at a non-200 response whose
body parses to error code `ResourceNotFound` shows the pair is NOT classified
public (the error code is recorded instead), although the code's own comment
and debug output in that branch state that `ResourceNotFound`, like an empty
code, indicates public access; an empty parsed code IS classified public. -/
theorem checkAccess_resourceNotFound_not_public :
    (Azure.checkAccess "blob.core.windows.net" "acct" "cont"
        (.ok 404 ⟨true, some ⟨"ResourceNotFound",
          "The specified resource does not exist."⟩⟩)).isPublic = false ∧
    (Azure.checkAccess "blob.core.windows.net" "acct" "cont"
        (.ok 404 ⟨true, some ⟨"ResourceNotFound",
          "The specified resource does not exist."⟩⟩)).errorCode = "ResourceNotFound" ∧
    (Azure.checkAccess "blob.core.windows.net" "acct" "cont"
        (.ok 404 ⟨true, some ⟨"", ""⟩⟩)).isPublic = true := by
  decide

/-- Claim C7: probe classification is a deterministic function of the
captured response alone.  The `isPublic`/`errorCode` fields computed by
`Scanner.checkAccess` depend only on the fetch result, not on the account,
container or base-domain configuration; the classification of
`checkContainer` depends only on the response body (any two statuses give
the same outcome). -/
theorem classification_deterministic (bd1 a1 c1 bd2 a2 c2 : String)
    (r : Azure.FetchResult) (st1 st2 : Nat) (body : Blobber.Body) :
    ((Azure.checkAccess bd1 a1 c1 r).isPublic =
        (Azure.checkAccess bd2 a2 c2 r).isPublic ∧
     (Azure.checkAccess bd1 a1 c1 r).errorCode =
        (Azure.checkAccess bd2 a2 c2 r).errorCode) ∧
    Blobber.checkContainerClassify ⟨st1, body⟩ =
      Blobber.checkContainerClassify ⟨st2, body⟩ := by
  refine ⟨?_, rfl⟩
  cases r with
  | failed => exact ⟨rfl, rfl⟩
  | ok status b =>
    by_cases h200 : status = 200
    · simp [Azure.checkAccess, h200]
    · by_cases hread : b.readOk = false
      · simp [Azure.checkAccess, h200, hread]
      · cases hp : b.errorParse with
        | none => simp [Azure.checkAccess, h200, hread, hp]
        | some e =>
          by_cases hc : e.code = ""
          · simp [Azure.checkAccess, h200, hread, hp, hc]
          · simp [Azure.checkAccess, h200, hread, hp, hc]

/-- Claim C8: every reachable state of the probe semaphore
(`sem := make(chan struct{}, maxGoroutines)`) holds at most `n` slots, so at
most `n` probe workers are in flight at any time, over the whole
account × container product. -/
theorem probeSem_bounded (n k : Nat) (h : Blobber.SemReachable n k) : k ≤ n := by
  induction h with
  | init => exact Nat.zero_le n
  | step hr hs ih =>
    cases hs with
    | acquire hlt => omega
    | release => omega

/-- Claim C8 witness: a concrete two-acquire run of a size-2 semaphore. -/
theorem probeSem_bounded_witness : 2 ≤ 2 :=
  probeSem_bounded 2 2
    (Blobber.SemReachable.step
      (Blobber.SemReachable.step Blobber.SemReachable.init
        (Blobber.SemStep.acquire (by decide)))
      (Blobber.SemStep.acquire (by decide)))

/-- Claim C9: when `--output` and `--list` are both set, `RootCmd.Run` exits
through the configuration-error branch before any scanning: it performs no
DNS lookup and dispatches no probe worker (the run's event trace is empty). -/
theorem configConflict_aborts_before_scan (outputPath : String) (listBlobs : Bool)
    (resolves : String → Bool) (accountList containerList : List String) (bd : String)
    (ho : outputPath ≠ "") (hl : listBlobs = true) :
    Blobber.runOutcome outputPath listBlobs accountList containerList =
      Blobber.RunOutcome.configError ∧
    Blobber.runTrace outputPath listBlobs resolves accountList containerList bd = [] := by
  have h1 : Blobber.runOutcome outputPath listBlobs accountList containerList =
      Blobber.RunOutcome.configError := by
    unfold Blobber.runOutcome
    rw [if_pos ⟨ho, hl⟩]
  refine ⟨h1, ?_⟩
  unfold Blobber.runTrace
  rw [h1]
  simp

/-- Claim C9 witness: a concrete conflicting configuration produces the
configuration-error outcome and an empty scan trace. -/
theorem configConflict_aborts_before_scan_witness :
    Blobber.runOutcome "out.txt" true ["acct1"] ["c1"] =
      Blobber.RunOutcome.configError ∧
    Blobber.runTrace "out.txt" true (fun _ => true) ["acct1"] ["c1"]
      "blob.core.windows.net" = [] :=
  configConflict_aborts_before_scan "out.txt" true (fun _ => true) ["acct1"] ["c1"]
    "blob.core.windows.net" (by decide) rfl

/-- Claim C10: `DownloadFile` creates (truncates) the destination before the
HTTP request, so whenever it returns an error after directory and file
creation succeeded (request failure, non-200 status, or copy failure), a file
is left at the destination — empty, or a partial prefix of the body — and any
pre-existing content is destroyed. -/
theorem downloadFile_truncates_on_error (env : Downloader.DlEnv)
    (pre : Option (List Nat))
    (hm : env.mkdirOk = true) (hc : env.createOk = true)
    (he : (Downloader.DownloadFile env pre).1 ≠ none) :
    ∃ v, (Downloader.DownloadFile env pre).2 = some v ∧
      (v = [] ∨ ∃ n body, env.http = Downloader.HttpOutcome.resp 200 body ∧
        env.copyFailAfter = some n ∧ v = body.take n) := by
  cases hh : env.http with
  | netErr =>
    refine ⟨[], ?_, Or.inl rfl⟩
    simp [Downloader.DownloadFile, hm, hc, hh]
  | resp status body =>
    by_cases hst : status = 200
    · subst hst
      cases hcf : env.copyFailAfter with
      | some n =>
        refine ⟨body.take n, ?_, Or.inr ⟨n, body, rfl, rfl, rfl⟩⟩
        simp [Downloader.DownloadFile, hm, hc, hh, hcf]
      | none =>
        exfalso
        apply he
        simp [Downloader.DownloadFile, hm, hc, hh, hcf]
    · refine ⟨[], ?_, Or.inl rfl⟩
      simp [Downloader.DownloadFile, hm, hc, hh, hst]

/-- Claim C10 witness: a failed request with directory and file creation
succeeding leaves an empty file where a three-byte file existed before. -/
theorem downloadFile_truncates_on_error_witness :
    ∃ v, (Downloader.DownloadFile ⟨true, true, Downloader.HttpOutcome.netErr, none⟩
        (some [7, 7, 7])).2 = some v ∧
      (v = [] ∨ ∃ n body,
        (⟨true, true, Downloader.HttpOutcome.netErr, none⟩ : Downloader.DlEnv).http =
          Downloader.HttpOutcome.resp 200 body ∧
        (⟨true, true, Downloader.HttpOutcome.netErr, none⟩ : Downloader.DlEnv).copyFailAfter =
          some n ∧ v = body.take n) :=
  downloadFile_truncates_on_error ⟨true, true, Downloader.HttpOutcome.netErr, none⟩
    (some [7, 7, 7]) rfl rfl (by decide)

namespace Blobber

/-- A chain starting at the empty marker has no pages. -/
theorem chain_empty_marker {fetch : String → PageOutcome}
    {ps : List EnumerationResults} (h : Chain fetch "" ps) : ps = [] := by
  cases h with
  | nil => rfl
  | cons hne _ _ => exact absurd rfl hne

/-- The concatenated chain records have exactly the chain's total length. -/
theorem chainBlobs_length (ps : List EnumerationResults) :
    (chainBlobs ps).length = totalBlobs ps := by
  induction ps with
  | nil => rfl
  | cons r ps ih =>
    rw [chainBlobs_cons, totalBlobs_cons]
    simp [ih]

/-- The count walk over a complete chain counts exactly the chain's records
and requests exactly the chain's tokens (over `PrefixTo`). -/
theorem countBlobsWalk_chain_aux {fetch : String → PageOutcome}
    {m m' : String} {ps : List EnumerationResults} (h : PrefixTo fetch m ps m') :
    m' = "" → ∀ (fuel total0 : Nat), ps.length ≤ fuel →
      countBlobsWalk fetch fuel total0 m = (total0 + totalBlobs ps, chainTokens m ps) := by
  induction h with
  | nil m =>
    intro hend fuel t _
    subst hend
    cases fuel <;> simp [countBlobsWalk, chainTokens, totalBlobs]
  | cons hne hf hrest ih =>
    intro hend fuel t hfuel
    match fuel with
    | 0 => exact absurd hfuel (by simp)
    | f + 1 =>
      rename_i m m' r ps
      have hstep : countBlobsWalk fetch (f + 1) t m =
          ((countBlobsWalk fetch f (t + r.blobs.length) r.nextMarker).1,
           m :: (countBlobsWalk fetch f (t + r.blobs.length) r.nextMarker).2) := by
        simp only [countBlobsWalk, if_pos hne, hf]
      have hfl : ps.length ≤ f := by
        simp only [List.length_cons] at hfuel
        omega
      rw [hstep, ih hend f (t + r.blobs.length) hfl]
      simp only [totalBlobs_cons, chainTokens, Prod.mk.injEq]
      refine ⟨by omega, ?_⟩
      try exact rfl
      try trivial

/-- Chain version of `countBlobsWalk_chain_aux`. -/
theorem countBlobsWalk_chain {fetch : String → PageOutcome} {m : String}
    {ps : List EnumerationResults} (h : Chain fetch m ps)
    (fuel total0 : Nat) (hfuel : ps.length ≤ fuel) :
    countBlobsWalk fetch fuel total0 m = (total0 + totalBlobs ps, chainTokens m ps) :=
  countBlobsWalk_chain_aux h rfl fuel total0 hfuel

/-- `checkContainerList` when the continuation loop is not entered
(cap at most 5000, or no marker on the first page). -/
theorem checkContainerList_no_walk {fetch : String → PageOutcome} {limit : Int}
    {results : EnumerationResults} {fuel : Nat}
    (h : ¬ (5000 < limit ∧ results.nextMarker ≠ "")) :
    checkContainerList fetch limit results fuel =
      (if 0 < limit ∧ limit < (results.blobs.length : Int)
       then results.blobs.take limit.toNat else results.blobs, []) := by
  unfold checkContainerList
  rw [if_neg h]

/-- `checkContainerList` when the continuation loop runs. -/
theorem checkContainerList_walk {fetch : String → PageOutcome} {limit : Int}
    {results : EnumerationResults} {fuel : Nat}
    (h5 : 5000 < limit) (hnm : results.nextMarker ≠ "") :
    checkContainerList fetch limit results fuel =
      (if 0 < limit ∧
          limit < (((fetchNextPages fetch limit fuel results.blobs results.nextMarker).1).length : Int)
       then ((fetchNextPages fetch limit fuel results.blobs results.nextMarker).1).take limit.toNat
       else (fetchNextPages fetch limit fuel results.blobs results.nextMarker).1,
       (fetchNextPages fetch limit fuel results.blobs results.nextMarker).2) := by
  unfold checkContainerList
  rw [if_pos ⟨h5, hnm⟩]

/-- Emitted-list component of `checkContainerList_no_walk`. -/
theorem checkContainerList_no_walk1 {fetch : String → PageOutcome} {limit : Int}
    {results : EnumerationResults} {fuel : Nat}
    (h : ¬ (5000 < limit ∧ results.nextMarker ≠ "")) :
    (checkContainerList fetch limit results fuel).1 =
      if 0 < limit ∧ limit < (results.blobs.length : Int)
      then results.blobs.take limit.toNat else results.blobs := by
  rw [checkContainerList_no_walk h]

/-- Emitted-list component of `checkContainerList_walk`. -/
theorem checkContainerList_walk1 {fetch : String → PageOutcome} {limit : Int}
    {results : EnumerationResults} {fuel : Nat}
    (h5 : 5000 < limit) (hnm : results.nextMarker ≠ "") :
    (checkContainerList fetch limit results fuel).1 =
      if 0 < limit ∧
          limit < (((fetchNextPages fetch limit fuel results.blobs results.nextMarker).1).length : Int)
      then ((fetchNextPages fetch limit fuel results.blobs results.nextMarker).1).take limit.toNat
      else (fetchNextPages fetch limit fuel results.blobs results.nextMarker).1 := by
  rw [checkContainerList_walk h5 hnm]

end Blobber

namespace Blobber

/-- First page of the concrete two-page chain used for evaluation: three
records and continuation marker `t`. -/
def page1 : EnumerationResults := ⟨"", "cont", [blobN "a", blobN "b", blobN "c"], "t"⟩

/-- Second, terminal page of the concrete chain: ten records, empty marker. -/
def page2 : EnumerationResults := ⟨"", "cont", List.replicate 10 (blobN "d"), ""⟩

/-- A server returning `page2` for marker `t` and failing on anything else. -/
def fetch2 : String → PageOutcome := fun m => if m = "t" then .page page2 else .fetchErr

/-- The concrete chain `t → page2 → terminal`. -/
theorem fetch2_chain : Chain fetch2 "t" [page2] :=
  PrefixTo.cons (by decide) (by decide) (PrefixTo.nil "")

/-- Run A of the truncation comparison: one record on the first page, marker
`t`, and a terminal one-record page behind `t` (complete chain). -/
def c4FirstA : EnumerationResults := ⟨"", "cont", [blobN "a"], "t"⟩

/-- The terminal page of run A. -/
def c4PageA : EnumerationResults := ⟨"", "cont", [blobN "b"], ""⟩

/-- Run A's server. -/
def c4FetchA : String → PageOutcome := fun m => if m = "t" then .page c4PageA else .fetchErr

/-- Run B: both records already on the first page, marker `u`, and a server
failing every continuation request (chain truncated by failure). -/
def c4FirstB : EnumerationResults := ⟨"", "cont", [blobN "a", blobN "b"], "u"⟩

/-- Run B's server: every request fails. -/
def c4FetchB : String → PageOutcome := fun _ => .fetchErr

end Blobber

/-- Claim C3, counterexample: with the default cap `limit = 10` (which is not
greater than 5000) and a first page of 3 records followed by a terminal page
of 10 records (true total B = 13), `checkContainer`'s enumeration emits only
the 3 first-page records, not `min 10 13 = 10`: the continuation loop is
gated on `limit > 5000` and is never entered. -/
theorem checkContainerList_small_cap_counterexample :
    Blobber.Chain Blobber.fetch2 Blobber.page1.nextMarker [Blobber.page2] ∧
    Blobber.page1.blobs.length + Blobber.totalBlobs [Blobber.page2] = 13 ∧
    ((Blobber.checkContainerList Blobber.fetch2 10 Blobber.page1 5).1).length = 3 ∧
    ¬ ((Blobber.checkContainerList Blobber.fetch2 10 Blobber.page1 5).1).length = min 10 13 :=
  ⟨Blobber.fetch2_chain, by decide, by decide, by decide⟩

/-- Claim C3, amended: for a complete chain behind the first page, when the
cap exceeds 5000 the emitted list has exactly `min limit (first + total)`
records; when `0 < limit ≤ 5000` no continuation page is fetched and the
emitted list has `min limit first` records; and once the accumulated count
has reached the cap the loop issues no further request. -/
theorem checkContainerList_cap_semantics (fetch : String → Blobber.PageOutcome)
    (limit : Int) (results : Blobber.EnumerationResults)
    (ps : List Blobber.EnumerationResults) (fuel : Nat)
    (hch : Blobber.Chain fetch results.nextMarker ps) (hfuel : ps.length ≤ fuel) :
    (5000 < limit →
      ((Blobber.checkContainerList fetch limit results fuel).1).length =
        min limit.toNat (results.blobs.length + Blobber.totalBlobs ps)) ∧
    (0 < limit → limit ≤ 5000 →
      ((Blobber.checkContainerList fetch limit results fuel).1).length =
        min limit.toNat results.blobs.length) ∧
    (∀ (acc : List Blobber.Blob) (m0 : String), limit ≤ (acc.length : Int) →
      (Blobber.fetchNextPages fetch limit fuel acc m0).2 = []) := by
  refine ⟨?_, ?_, ?_⟩
  · intro h5
    by_cases hnm : results.nextMarker = ""
    · have hps : ps = [] := Blobber.chain_empty_marker (hnm ▸ hch)
      subst hps
      rw [Blobber.checkContainerList_no_walk1 (fun hc => hc.2 hnm), Blobber.totalBlobs_nil]
      split_ifs with hcond
      · rw [List.length_take]
        omega
      · have hnl : ¬ limit < (results.blobs.length : Int) :=
          fun hl => hcond ⟨by omega, hl⟩
        omega
    · rw [Blobber.checkContainerList_walk1 h5 hnm]
      have hle := @Blobber.fetchNextPages_length_le fetch limit _ _ hch fuel results.blobs hfuel
      have hge := @Blobber.fetchNextPages_length_ge fetch limit _ _ hch fuel results.blobs hfuel
      split_ifs with hcond
      · obtain ⟨hc1, hc2⟩ := hcond
        rw [List.length_take]
        omega
      · have hnl : ¬ limit <
            (((Blobber.fetchNextPages fetch limit fuel results.blobs results.nextMarker).1).length : Int) :=
          fun hl => hcond ⟨by omega, hl⟩
        omega
  · intro h0 h5
    have hno : ¬ (5000 < limit ∧ results.nextMarker ≠ "") := fun hc => by omega
    rw [Blobber.checkContainerList_no_walk1 hno]
    split_ifs with hcond
    · rw [List.length_take]
    · have hnl : ¬ limit < (results.blobs.length : Int) :=
        fun hl => hcond ⟨h0, hl⟩
      omega
  · intro acc m0 hge0
    have hno : ¬ (m0 ≠ "" ∧ (acc.length : Int) < limit) :=
      fun hc => absurd hc.2 (by omega)
    cases fuel with
    | zero => rfl
    | succ f =>
      simp only [Blobber.fetchNextPages]
      rw [if_neg hno]

/-- Claim C3 witness: on the concrete two-page chain (3 + 10 records), a cap
of 6000 emits `min 6000 13` records and the default cap 10 emits
`min 10 3` records. -/
theorem checkContainerList_cap_semantics_witness :
    ((Blobber.checkContainerList Blobber.fetch2 6000 Blobber.page1 5).1).length =
      min (Int.toNat 6000) (Blobber.page1.blobs.length + Blobber.totalBlobs [Blobber.page2]) ∧
    ((Blobber.checkContainerList Blobber.fetch2 10 Blobber.page1 5).1).length =
      min (Int.toNat 10) Blobber.page1.blobs.length := by
  constructor
  · exact (checkContainerList_cap_semantics Blobber.fetch2 6000 Blobber.page1
      [Blobber.page2] 5 Blobber.fetch2_chain (by decide)).1 (by decide)
  · exact ((checkContainerList_cap_semantics Blobber.fetch2 10 Blobber.page1
      [Blobber.page2] 5 Blobber.fetch2_chain (by decide)).2).1 (by decide) (by decide)

/-- Claim C4, counterexample: a run whose chain completes (run A) and a run
whose chain is truncated by a failed continuation request (run B) produce
IDENTICAL enumeration outputs — the gathered list carries no completeness
flag of any kind, so downstream consumers cannot distinguish the two. -/
theorem truncated_run_indistinguishable :
    (Blobber.checkContainerList Blobber.c4FetchA 99999 Blobber.c4FirstA 5).1 =
      (Blobber.checkContainerList Blobber.c4FetchB 99999 Blobber.c4FirstB 5).1 ∧
    Blobber.Chain Blobber.c4FetchA Blobber.c4FirstA.nextMarker [Blobber.c4PageA] ∧
    Blobber.pageErr (Blobber.c4FetchB Blobber.c4FirstB.nextMarker) = true ∧
    (Blobber.checkContainerList Blobber.c4FetchB 99999 Blobber.c4FirstB 5).2 = ["u"] :=
  ⟨by decide, Blobber.PrefixTo.cons (by decide) (by decide) (Blobber.PrefixTo.nil ""),
   by decide, by decide⟩

/-- Claim C4, amended: when a fetch, read or parse of a page after the first
fails, the loop stops at that page and yields exactly the records of the
preceding pages as an ordinary successful list (the failed request is the
last one issued) — but the result carries no completeness flag. -/
theorem fetchNextPages_partial_on_failure (fetch : String → Blobber.PageOutcome)
    (limit : Int) (m m' : String) (ps : List Blobber.EnumerationResults)
    (fuel : Nat) (acc : List Blobber.Blob)
    (hpre : Blobber.PrefixTo fetch m ps m') (hm : m' ≠ "")
    (herr : Blobber.pageErr (fetch m') = true)
    (hfuel : ps.length < fuel)
    (hlim : ((acc.length : Int) + (Blobber.totalBlobs ps : Int)) < limit) :
    Blobber.fetchNextPages fetch limit fuel acc m =
      (acc ++ Blobber.chainBlobs ps, Blobber.chainTokens m ps ++ [m']) := by
  have hdec := Blobber.fetchNextPages_prefix hpre fuel acc (Nat.le_of_lt hfuel) hlim
  obtain ⟨k, hk⟩ : ∃ k, fuel - ps.length = k + 1 := ⟨fuel - ps.length - 1, by omega⟩
  have hacc : (((acc ++ Blobber.chainBlobs ps).length : Nat) : Int) < limit := by
    have h1 : (acc ++ Blobber.chainBlobs ps).length =
        acc.length + Blobber.totalBlobs ps := by
      simp [Blobber.chainBlobs_length]
    omega
  have hone : Blobber.fetchNextPages fetch limit (k + 1) (acc ++ Blobber.chainBlobs ps) m' =
      (acc ++ Blobber.chainBlobs ps, [m']) := by
    cases hfm : fetch m' with
    | page r =>
      rw [hfm] at herr
      simp [Blobber.pageErr] at herr
    | fetchErr => simp only [Blobber.fetchNextPages, if_pos (And.intro hm hacc), hfm]
    | readErr => simp only [Blobber.fetchNextPages, if_pos (And.intro hm hacc), hfm]
    | parseErr => simp only [Blobber.fetchNextPages, if_pos (And.intro hm hacc), hfm]
  rw [hdec, hk, hone]

/-- Claim C4 witness: a first-page-only run whose single continuation request
fails returns exactly the first page's records, with that failed request as
the only one issued. -/
theorem fetchNextPages_partial_on_failure_witness :
    Blobber.fetchNextPages Blobber.c4FetchB 99999 1 Blobber.c4FirstB.blobs "u" =
      (Blobber.c4FirstB.blobs ++ Blobber.chainBlobs [],
       Blobber.chainTokens "u" [] ++ ["u"]) :=
  fetchNextPages_partial_on_failure Blobber.c4FetchB 99999 "u" "u" [] 1
    Blobber.c4FirstB.blobs (Blobber.PrefixTo.nil "u") (by decide) (by decide)
    (by decide) (by decide)

/-- Claim C5: along a complete page chain (no failures, cap not binding), the
fetch loop requests page n+1 under exactly page n's continuation token
(`chainTokens`), stops exactly at the page with the empty token, and emits
the in-order concatenation of the per-page records; the auxiliary total-count
walk follows the same token sequence and counts the same records. -/
theorem enumerator_follows_chain (fetch : String → Blobber.PageOutcome)
    (limit : Int) (m : String) (ps : List Blobber.EnumerationResults)
    (fuel : Nat) (acc : List Blobber.Blob) (total0 : Nat)
    (hch : Blobber.Chain fetch m ps) (hfuel : ps.length ≤ fuel)
    (hlim : ((acc.length : Int) + (Blobber.totalBlobs ps : Int)) < limit) :
    Blobber.fetchNextPages fetch limit fuel acc m =
      (acc ++ Blobber.chainBlobs ps, Blobber.chainTokens m ps) ∧
    Blobber.countBlobsWalk fetch fuel total0 m =
      (total0 + Blobber.totalBlobs ps, Blobber.chainTokens m ps) :=
  ⟨Blobber.fetchNextPages_chain hch fuel acc hfuel hlim,
   Blobber.countBlobsWalk_chain hch fuel total0 hfuel⟩

/-- Claim C5 witness: the concrete chain `t → page2 → terminal` walked with
cap 6000 from the first page's three records. -/
theorem enumerator_follows_chain_witness :
    Blobber.fetchNextPages Blobber.fetch2 6000 5 Blobber.page1.blobs "t" =
      (Blobber.page1.blobs ++ Blobber.chainBlobs [Blobber.page2],
       Blobber.chainTokens "t" [Blobber.page2]) ∧
    Blobber.countBlobsWalk Blobber.fetch2 5 3 "t" =
      (3 + Blobber.totalBlobs [Blobber.page2], Blobber.chainTokens "t" [Blobber.page2]) :=
  enumerator_follows_chain Blobber.fetch2 6000 "t" [Blobber.page2] 5
    Blobber.page1.blobs 3 Blobber.fetch2_chain (by decide) (by decide)

/-- Claim C6: for an account whose DNS lookup fails, the scheduler's whole
event trace contains exactly ONE event about that account — the single failed
resolution — and in particular no probe worker dispatch for any of its
containers (hence no probe, no consumed semaphore slot and no probe output
for that account). -/
theorem unresolved_account_fully_skipped (resolves : String → Bool)
    (accounts containers : List String) (bd a : String)
    (hnd : accounts.Nodup) (ha : a ∈ accounts)
    (hfail : resolves (a ++ "." ++ bd) = false) :
    (Blobber.scanTrace resolves accounts containers bd).filter
        (Blobber.aboutAccount bd a) =
      [Blobber.ScanEvent.resolve (a ++ "." ++ bd) false] := by
  induction accounts with
  | nil => cases ha
  | cons x xs ih =>
    have hsplit : Blobber.scanTrace resolves (x :: xs) containers bd =
        Blobber.accountEvents resolves containers bd x ++
          Blobber.scanTrace resolves xs containers bd := by
      simp [Blobber.scanTrace]
    have hnd' : x ∉ xs ∧ xs.Nodup := by simpa [List.nodup_cons] using hnd
    rw [hsplit, List.filter_append]
    rcases List.mem_cons.mp ha with hax | hmem
    · subst hax
      rw [Blobber.scanTrace_filter_not_mem resolves containers bd a xs hnd'.1]
      have hblock : Blobber.accountEvents resolves containers bd a =
          [Blobber.ScanEvent.resolve (a ++ "." ++ bd) false] := by
        unfold Blobber.accountEvents
        rw [if_neg (by simp [hfail])]
      rw [hblock]
      simp [Blobber.aboutAccount]
    · have hxa : x ≠ a := by
        intro hc
        subst hc
        exact hnd'.1 hmem
      rw [Blobber.accountEvents_filter_ne resolves containers bd hxa, ih hnd'.2 hmem]
      rfl

/-- Claim C6 witness: in a two-account scan where `bad.example.com` does not
resolve, the only event about account `bad` is its failed lookup. -/
theorem unresolved_account_fully_skipped_witness :
    (Blobber.scanTrace (fun d => !(d == "bad.example.com")) ["good", "bad"]
        ["c1"] "example.com").filter (Blobber.aboutAccount "example.com" "bad") =
      [Blobber.ScanEvent.resolve ("bad" ++ "." ++ "example.com") false] :=
  unresolved_account_fully_skipped (fun d => !(d == "bad.example.com"))
    ["good", "bad"] ["c1"] "example.com" "bad" (by decide) (by decide) (by decide)
